import Mathlib

/-!
Verification of the vehicle recommendation scorer in
src/server/routes/recommendRoutes.js (function calculateAdvancedRecommendations
and the POST /api/recommend handler).

Numeric modelling: JavaScript numbers coming out of parseInt / parseFloat (and
JSON preference fields) are modelled as `Option ℚ`, with `none` standing for
NaN (a non-numeric cell) or `undefined` (an absent field).  Every JS comparison
involving NaN or undefined is false, which the `js*` comparison functions below
reproduce.  JS arithmetic is IEEE-754 binary64: the literals 0.8 and 1.15 are
represented by their nearest doubles (`dbl08`, `dbl115`; 2.5, 1.5, 3.5, 4.5
are exactly representable), and every multiplication result is rounded to the
nearest double by `dblRound` (round to nearest, ties to even, 53-bit
significand; the exponent is unbounded, i.e. overflow and subnormal rounding
are not modelled — exact for every magnitude the catalog and budget domain can
produce).  This matters: `28480 * 1.15` is `32751.999999999996` in JS, below
the exact `32752`.
-/

namespace TeslaRec

/-- A JS number as the scorer sees it: `some q` for a finite value, `none` for
NaN (non-numeric parse) or `undefined` (absent field). -/
abbrev JsNum := Option ℚ

/-- JS `a <= b`: false unless both operands are numbers. -/
def jsLe : JsNum → JsNum → Bool
  | some a, some b => decide (a ≤ b)
  | _, _ => false

/-- JS `a < b`: false unless both operands are numbers. -/
def jsLt : JsNum → JsNum → Bool
  | some a, some b => decide (a < b)
  | _, _ => false

/-- JS `a >= b`. -/
def jsGe (a b : JsNum) : Bool := jsLe b a

/-- JS `a > b`. -/
def jsGt (a b : JsNum) : Bool := jsLt b a

/-- Rational multiplication written out on the normalized representation via
`mkRat`, so that concrete scores evaluate inside the kernel (the library's
`Rat.mul` is irreducible); `ratMul_eq_mul` below shows it is exactly
multiplication. -/
def ratMul (q c : ℚ) : ℚ := mkRat (q.num * c.num) (q.den * c.den)

theorem ratMul_eq_mul (q c : ℚ) : ratMul q c = q * c := by
  rw [ratMul, ← Rat.mkRat_mul_mkRat, Rat.mkRat_self, Rat.mkRat_self]

theorem mkRat_eq_div (a : ℤ) (b : ℕ) : (mkRat a b : ℚ) = (a : ℚ) / (b : ℚ) := by
  rw [Rat.mkRat_eq_divInt, Rat.divInt_eq_div]
  norm_num

/-- Round the integer ratio n / d (with 0 < d) to the nearest integer, ties
to even — the rounding step IEEE-754 applies to the scaled significand. -/
def roundNE (n d : ℤ) : ℤ :=
  if 2 * (n % d) < d then n / d
  else if d < 2 * (n % d) then n / d + 1
  else if (n / d) % 2 = 0 then n / d else n / d + 1

theorem roundNE_le (n d : ℤ) (hd : 0 < d) : 2 * d * roundNE n d ≤ 2 * n + d := by
  have key : d * (n / d) + n % d = n := Int.ediv_add_emod n d
  have h0 : 0 ≤ n % d := Int.emod_nonneg n (ne_of_gt hd)
  have h1 : n % d < d := Int.emod_lt_of_pos n hd
  unfold roundNE
  split_ifs <;> nlinarith [key, h0, h1]

/-- Fuel-driven floor log2, written without well-founded recursion so that it
evaluates inside the kernel; correct whenever n < 2 ^ (fuel + 1). -/
def log2fuel : ℕ → ℕ → ℕ
  | 0, _ => 0
  | fuel + 1, n => if n ≤ 1 then 0 else log2fuel fuel (n / 2) + 1

theorem log2fuel_spec : ∀ (fuel n : ℕ), 0 < n → n < 2 ^ (fuel + 1) →
    2 ^ log2fuel fuel n ≤ n ∧ n < 2 ^ (log2fuel fuel n + 1)
  | 0, n, hn, hlt => by
    have h2 : (2 : ℕ) ^ (0 + 1) = 2 := by norm_num
    have h1 : n = 1 := by omega
    subst h1
    simp [log2fuel]
  | fuel + 1, n, hn, hlt => by
    rw [log2fuel]
    by_cases h1 : n ≤ 1
    · have h2 : n = 1 := by omega
      subst h2
      simp
    · rw [if_neg h1]
      have hn2 : 0 < n / 2 := by omega
      have hp : (2 : ℕ) ^ (fuel + 1 + 1) = 2 * 2 ^ (fuel + 1) := by ring
      have hlt2 : n / 2 < 2 ^ (fuel + 1) := by omega
      obtain ⟨ih1, ih2⟩ := log2fuel_spec fuel (n / 2) hn2 hlt2
      have e1 : (2 : ℕ) ^ (log2fuel fuel (n / 2) + 1)
          = 2 * 2 ^ log2fuel fuel (n / 2) := by ring
      have e2 : (2 : ℕ) ^ (log2fuel fuel (n / 2) + 1 + 1)
          = 2 * 2 ^ (log2fuel fuel (n / 2) + 1) := by ring
      omega

/-- Kernel-computable ⌊log2 n⌋ for n ≥ 1. -/
def natLog2 (n : ℕ) : ℕ := log2fuel n n

theorem natLog2_spec (n : ℕ) (hn : 0 < n) :
    2 ^ natLog2 n ≤ n ∧ n < 2 ^ (natLog2 n + 1) := by
  refine log2fuel_spec n n hn ?_
  have h1 : n < 2 ^ n := Nat.lt_pow_self one_lt_two n
  have h2 : (2 : ℕ) ^ (n + 1) = 2 * 2 ^ n := by ring
  omega

/-- ⌊log2 (n / d)⌋ for positive naturals n, d. -/
def ilog2Q (n d : ℕ) : ℤ :=
  if d * 2 ^ natLog2 n ≤ n * 2 ^ natLog2 d then (natLog2 n : ℤ) - natLog2 d
  else (natLog2 n : ℤ) - natLog2 d - 1

theorem ilog2Q_le (n d : ℕ) (hn : 0 < n) (hd : 0 < d) :
    (2 : ℚ) ^ ilog2Q n d ≤ (n : ℚ) / d := by
  obtain ⟨ha1, ha2⟩ := natLog2_spec n hn
  obtain ⟨hb1, hb2⟩ := natLog2_spec d hd
  have hdq : (0 : ℚ) < (d : ℚ) := by exact_mod_cast hd
  unfold ilog2Q
  split_ifs with hif
  · rw [zpow_sub₀ two_ne_zero, zpow_natCast, zpow_natCast,
      div_le_div_iff₀ (by positivity) hdq]
    have hif' : 2 ^ natLog2 n * d ≤ n * 2 ^ natLog2 d := by linarith [hif]
    exact_mod_cast hif'
  · rw [sub_sub, zpow_sub₀ two_ne_zero, zpow_natCast, zpow_add₀ two_ne_zero,
      zpow_natCast, zpow_one, div_le_div_iff₀ (by positivity) hdq]
    have hd2 : d ≤ 2 ^ natLog2 d * 2 := by
      have : (2 : ℕ) ^ (natLog2 d + 1) = 2 ^ natLog2 d * 2 := by ring
      omega
    have key : 2 ^ natLog2 n * d ≤ n * (2 ^ natLog2 d * 2) :=
      calc 2 ^ natLog2 n * d ≤ n * d := Nat.mul_le_mul ha1 (le_refl d)
        _ ≤ n * (2 ^ natLog2 d * 2) := Nat.mul_le_mul (le_refl n) hd2
    exact_mod_cast key

/-- Sign of a rational as an integer unit. -/
def dblSig (x : ℚ) : ℤ := if x.num < 0 then -1 else 1

/-- Position of the unit in the last place of x's 53-bit significand. -/
def dblExp (x : ℚ) : ℤ := ilog2Q x.num.natAbs x.den - 52

/-- Round a rational to the nearest IEEE-754 binary64 value (round to
nearest, ties to even, on a 53-bit significand; exponent unbounded, see the
header note). -/
def dblRound (x : ℚ) : ℚ :=
  if x = 0 then 0
  else if 0 ≤ dblExp x then
    ((dblSig x * roundNE (x.num.natAbs : ℤ) ((x.den * 2 ^ (dblExp x).toNat : ℕ) : ℤ)
        * ((2 ^ (dblExp x).toNat : ℕ) : ℤ) : ℤ) : ℚ)
  else
    mkRat
      (dblSig x * roundNE ((x.num.natAbs * 2 ^ (-dblExp x).toNat : ℕ) : ℤ) (x.den : ℤ))
      (2 ^ (-dblExp x).toNat)

/-- Rounding to nearest never overshoots by more than half a unit in the last
place, which at these magnitudes is at most x / 2 ^ 52. -/
theorem dblRound_le (x : ℚ) (hx : 0 < x) : dblRound x ≤ x + x / 2 ^ 52 := by
  have hne : x ≠ 0 := ne_of_gt hx
  have hnum : 0 < x.num := Rat.num_pos.mpr hx
  have hsig : dblSig x = 1 := if_neg (not_lt.mpr (le_of_lt hnum))
  have habs : ((x.num.natAbs : ℕ) : ℤ) = x.num := Int.natAbs_of_nonneg (le_of_lt hnum)
  have hn : 0 < x.num.natAbs := Int.natAbs_pos.mpr (ne_of_gt hnum)
  have hd : 0 < x.den := x.den_pos
  have hdq : (0 : ℚ) < (x.den : ℚ) := by exact_mod_cast hd
  have hxeq : ((x.num.natAbs : ℕ) : ℚ) / (x.den : ℚ) = x := by
    have hnq : ((x.num.natAbs : ℕ) : ℚ) = (x.num : ℚ) := by
      rw [← habs]; exact (Int.cast_natCast _).symm
    rw [hnq]; exact Rat.num_div_den x
  have hxd : ((x.num.natAbs : ℕ) : ℚ) = x * (x.den : ℚ) :=
    (div_eq_iff (ne_of_gt hdq)).mp hxeq
  have hN0 : (0 : ℚ) ≤ ((x.num.natAbs : ℕ) : ℚ) := Nat.cast_nonneg _
  have he := ilog2Q_le x.num.natAbs x.den hn hd
  rw [hxeq] at he
  have h52ne : ((2 : ℚ) ^ 52) ≠ 0 := (by positivity : (0:ℚ) < 2 ^ 52).ne'
  unfold dblRound
  rw [if_neg hne, hsig]
  split_ifs with hsh
  · -- the significand sits at or above the units: shift = dblExp x ≥ 0
    set s : ℕ := (dblExp x).toNat with hsdef
    have hsz : (s : ℤ) = ilog2Q x.num.natAbs x.den - 52 := by
      rw [hsdef, Int.toNat_of_nonneg hsh]; rfl
    rw [show ((x.den * 2 ^ s : ℕ) : ℤ) = (x.den : ℤ) * 2 ^ s from by push_cast; ring]
    set M : ℤ := roundNE (x.num.natAbs : ℤ) ((x.den : ℤ) * 2 ^ s) with hMdef
    have hDpos : (0 : ℤ) < (x.den : ℤ) * 2 ^ s := by positivity
    have h0 := roundNE_le (x.num.natAbs : ℤ) ((x.den : ℤ) * 2 ^ s) hDpos
    rw [← hMdef] at h0
    have hMq : ((2 * ((x.den : ℤ) * 2 ^ s) * M : ℤ) : ℚ)
        ≤ ((2 * (x.num.natAbs : ℤ) + (x.den : ℤ) * 2 ^ s : ℤ) : ℚ) :=
      Int.cast_le.mpr h0
    push_cast [-Int.natCast_natAbs] at hMq
    have he' : (2 : ℚ) ^ s * 2 ^ 52 ≤ x := by
      have hes : ilog2Q x.num.natAbs x.den = ((s + 52 : ℕ) : ℤ) := by push_cast; omega
      rw [hes, zpow_natCast, pow_add] at he
      exact he
    have hdx2 : (x.den : ℚ) * 2 ^ s * 2 ^ 52 ≤ ((x.num.natAbs : ℕ) : ℚ) := by
      have h1 : (x.den : ℚ) * (2 ^ s * 2 ^ 52) ≤ (x.den : ℚ) * x :=
        mul_le_mul_of_nonneg_left he' (le_of_lt hdq)
      rw [hxd]; nlinarith [h1]
    have hdm : ∀ a b : ℚ, a / 2 ^ 52 * (b * 2 ^ 52) = a * b := by
      intro a b; field_simp; ring
    have expand : (x + x / 2 ^ 52) * ((x.den : ℚ) * 2 ^ 52)
        = ((x.num.natAbs : ℕ) : ℚ) * 2 ^ 52 + ((x.num.natAbs : ℕ) : ℚ) := by
      rw [hxd, add_mul, hdm]
      ring
    have key : (M : ℚ) * 2 ^ s * ((x.den : ℚ) * 2 ^ 52)
        ≤ (x + x / 2 ^ 52) * ((x.den : ℚ) * 2 ^ 52) := by
      rw [expand]
      calc (M : ℚ) * 2 ^ s * ((x.den : ℚ) * 2 ^ 52)
          = (2 * ((x.den : ℚ) * 2 ^ s) * M) * 2 ^ 51 := by ring
        _ ≤ (2 * ((x.num.natAbs : ℕ) : ℚ) + (x.den : ℚ) * 2 ^ s) * 2 ^ 51 := by
            nlinarith [hMq]
        _ = ((x.num.natAbs : ℕ) : ℚ) * 2 ^ 52
              + ((x.den : ℚ) * 2 ^ s * 2 ^ 52) / 2 := by ring
        _ ≤ ((x.num.natAbs : ℕ) : ℚ) * 2 ^ 52 + ((x.num.natAbs : ℕ) : ℚ) := by
            nlinarith [hdx2, hN0]
    have final : (M : ℚ) * 2 ^ s ≤ x + x / 2 ^ 52 :=
      le_of_mul_le_mul_right key (by positivity)
    push_cast [one_mul, -Int.natCast_natAbs]
    linarith [final]
  · -- the significand sits below the units: shift < 0, scale up by 2 ^ t
    set t : ℕ := (-dblExp x).toNat with htdef
    have htz : (t : ℤ) = 52 - ilog2Q x.num.natAbs x.den := by
      have h0 : dblExp x < 0 := by omega
      rw [htdef, Int.toNat_of_nonneg (by omega)]
      simp [dblExp]
    rw [show ((x.num.natAbs * 2 ^ t : ℕ) : ℤ) = (x.num.natAbs : ℤ) * 2 ^ t from by
      push_cast [-Int.natCast_natAbs]; ring]
    set M : ℤ := roundNE ((x.num.natAbs : ℤ) * 2 ^ t) (x.den : ℤ) with hMdef
    have h0 := roundNE_le ((x.num.natAbs : ℤ) * 2 ^ t) (x.den : ℤ) (by exact_mod_cast hd)
    rw [← hMdef] at h0
    have hMq : ((2 * (x.den : ℤ) * M : ℤ) : ℚ)
        ≤ ((2 * ((x.num.natAbs : ℤ) * 2 ^ t) + (x.den : ℤ) : ℤ) : ℚ) :=
      Int.cast_le.mpr h0
    push_cast [-Int.natCast_natAbs] at hMq
    have hxe : (2 : ℚ) ^ (52 : ℕ) ≤ x * 2 ^ t := by
      have h1 : (2 : ℚ) ^ ilog2Q x.num.natAbs x.den * (2 : ℚ) ^ ((t : ℕ) : ℤ)
          ≤ x * (2 : ℚ) ^ ((t : ℕ) : ℤ) :=
        mul_le_mul_of_nonneg_right he (by positivity)
      rw [← zpow_add₀ two_ne_zero] at h1
      have h2 : ilog2Q x.num.natAbs x.den + ((t : ℕ) : ℤ) = ((52 : ℕ) : ℤ) := by
        push_cast
        omega
      rw [h2, zpow_natCast, zpow_natCast] at h1
      exact h1
    have hd52 : (x.den : ℚ) * 2 ^ 52 ≤ ((x.num.natAbs : ℕ) : ℚ) * 2 ^ t := by
      have h1 : (x.den : ℚ) * (2 ^ 52) ≤ (x.den : ℚ) * (x * 2 ^ t) :=
        mul_le_mul_of_nonneg_left hxe (le_of_lt hdq)
      rw [hxd]; nlinarith [h1]
    have ht0 : (0 : ℚ) < (2 : ℚ) ^ t := by positivity
    have hdm : ∀ a b : ℚ, a / 2 ^ 52 * (b * 2 ^ 52) = a * b := by
      intro a b; field_simp; ring
    have hdm2 : ∀ a b : ℚ, a / 2 ^ t * (2 ^ t * b) = a * b := by
      intro a b; field_simp; ring
    have expand : (x + x / 2 ^ 52) * (2 ^ t * ((x.den : ℚ) * 2 ^ 52))
        = ((x.num.natAbs : ℕ) : ℚ) * 2 ^ t * 2 ^ 52
          + ((x.num.natAbs : ℕ) : ℚ) * 2 ^ t := by
      rw [hxd, add_mul,
        show (2 : ℚ) ^ t * ((x.den : ℚ) * 2 ^ 52) = 2 ^ t * (x.den : ℚ) * 2 ^ 52 from by
          ring,
        hdm]
      ring
    have lhs_eq : (M : ℚ) / 2 ^ t * (2 ^ t * ((x.den : ℚ) * 2 ^ 52))
        = (M : ℚ) * ((x.den : ℚ) * 2 ^ 52) := hdm2 _ _
    have key : (M : ℚ) / 2 ^ t * (2 ^ t * ((x.den : ℚ) * 2 ^ 52))
        ≤ (x + x / 2 ^ 52) * (2 ^ t * ((x.den : ℚ) * 2 ^ 52)) := by
      rw [lhs_eq, expand]
      calc (M : ℚ) * ((x.den : ℚ) * 2 ^ 52)
          = (2 * (x.den : ℚ) * M) * 2 ^ 51 := by ring
        _ ≤ (2 * (((x.num.natAbs : ℕ) : ℚ) * 2 ^ t) + (x.den : ℚ)) * 2 ^ 51 := by
            nlinarith [hMq]
        _ = ((x.num.natAbs : ℕ) : ℚ) * 2 ^ t * 2 ^ 52
              + ((x.den : ℚ) * 2 ^ 52) / 2 := by ring
        _ ≤ ((x.num.natAbs : ℕ) : ℚ) * 2 ^ t * 2 ^ 52
              + ((x.num.natAbs : ℕ) : ℚ) * 2 ^ t := by
            nlinarith [hd52, hN0, ht0.le]
    have final : (M : ℚ) / 2 ^ t ≤ x + x / 2 ^ 52 :=
      le_of_mul_le_mul_right key (by positivity)
    rw [mkRat_eq_div]
    push_cast [one_mul, -Int.natCast_natAbs]
    linarith [final]

/-- The IEEE-754 double nearest the source literal 0.8 (it is slightly above
4 / 5). -/
def dbl08 : ℚ := mkRat 3602879701896397 4503599627370496

theorem dbl08_eq : dbl08 = (3602879701896397 : ℚ) / 4503599627370496 := by
  rw [dbl08, mkRat_eq_div]; norm_num

/-- The IEEE-754 double nearest the source literal 1.15 (it is slightly below
23 / 20). -/
def dbl115 : ℚ := mkRat 2589569785738035 2251799813685248

theorem dbl115_eq : dbl115 = (2589569785738035 : ℚ) / 2251799813685248 := by
  rw [dbl115, mkRat_eq_div]; norm_num

/-- JS double multiplication: the exact product, rounded to the nearest
double. -/
def dblMul (q c : ℚ) : ℚ := dblRound (ratMul q c)

theorem dblMul_eq_round (q c : ℚ) : dblMul q c = dblRound (q * c) := by
  rw [dblMul, ratMul_eq_mul]

/-- JS multiplication of a possibly-NaN number by a double constant;
NaN/undefined propagates, the result is rounded like JS rounds it. -/
def jsMulD (a : JsNum) (c : ℚ) : JsNum := a.map (fun q => dblMul q c)

/-- One parsed row of tesla_models.csv, as `calculateAdvancedRecommendations`
reads it.  The numeric cells are represented by the value parseInt / parseFloat
produces on them (`none` when the cell is non-numeric, i.e. NaN).  `seating` is
the raw 'Seating Capacity' cell, `none` when the cell is absent. -/
structure Car where
  model : String
  variant : String
  basePrice : JsNum
  rangeMi : JsNum
  accel : JsNum
  efficiency : JsNum
  seating : Option String
  bodyType : String
  towing : String
  fsdAvailable : String
  deriving DecidableEq, Repr

/-- The priceRange object of a preference payload; min/max may be absent. -/
structure PriceRange where
  min : JsNum
  max : JsNum
  deriving DecidableEq, Repr

/-- The preference fields as read inside `calculateAdvancedRecommendations`,
with `priceRange` known to be present (otherwise the property access
`preferences.priceRange.max` throws before any scoring happens; see
`recommendRoute`).  `towing`/`fsd` model the truthiness of the corresponding
payload fields.  `cityHighwayRatio` is carried in the payload but never read by
any scoring rule. -/
structure Preferences where
  priceRange : PriceRange
  dailyDistance : JsNum
  passengers : JsNum
  style : Option String
  priority : Option String
  towing : Bool
  fsd : Bool
  cityHighwayRatio : JsNum
  deriving DecidableEq, Repr

/-- The reason strings pushed by the scoring rules, abstracted from their
locale formatting: each constructor records which rule fired and the value the
string interpolates. -/
inductive Reason
  | fitsBudget (price : JsNum)
  | rangeCovers (range : JsNum)
  | supercarAccel (accel : JsNum)
  | highEfficiency (eff : JsNum)
  | seatsPeople (seats : JsNum)
  | matchesStyle (body : String)
  | towingCapacity (tow : String)
  | fsdReady
  deriving DecidableEq, Repr

/-- The details strings (only the over-budget note is ever pushed). -/
inductive Detail
  | slightlyOverBudget (price : JsNum)
  deriving DecidableEq, Repr

/-- `const seatsStr = car['Seating Capacity'] || '5'` — both `undefined` and
the empty string are falsy in JS, so either falls back to "5". -/
def seatsStr (car : Car) : String :=
  match car.seating with
  | none => "5"
  | some s => if s = "" then "5" else s

/-- Numeric value of a digit string. -/
def digitsToNat (cs : List Char) : ℕ :=
  cs.foldl (fun acc c => acc * 10 + (c.toNat - 48)) 0

/-- `Number(t)` / `parseInt(t)` on one seat-count alternative.  The catalog
cells are plain digit strings, on which both return the denoted value; any
other string is NaN (`none`). -/
def parseSeat (cs : List Char) : JsNum :=
  if cs ≠ [] ∧ cs.all Char.isDigit then some ((digitsToNat cs : ℚ)) else none

/-- `split('/')` on the character list of the seating cell. -/
def splitSlash : List Char → List (List Char)
  | [] => [[]]
  | c :: rest =>
    if c = '/' then [] :: splitSlash rest
    else
      match splitSlash rest with
      | [] => [[c]]
      | h :: t => (c :: h) :: t

/-- `seatsStr.includes('/') ? Math.max(...seatsStr.split('/').map(Number))
: parseInt(seatsStr)`.  `Math.max` is NaN as soon as any argument is NaN;
seat counts are non-negative, so folding `max` from 0 agrees with `Math.max`
over the split alternatives. -/
def maxSeats (car : Car) : JsNum :=
  let s := (seatsStr car).data
  if s.contains '/' then
    (splitSlash s).foldl
      (fun acc t =>
        match acc, parseSeat t with
        | some a, some b => some (max a b)
        | _, _ => none)
      (some 0)
  else parseSeat s

/-- Rule 1 (budget): +30 if price <= max (plus 5 if price < max * 0.8),
else +15 if price <= max * 1.15, else -30; the products are computed in
doubles. -/
def budgetDelta (p : Preferences) (car : Car) : ℤ :=
  if jsLe car.basePrice p.priceRange.max then
    30 + (if jsLt car.basePrice (jsMulD p.priceRange.max dbl08) then 5 else 0)
  else if jsLe car.basePrice (jsMulD p.priceRange.max dbl115) then 15
  else -30

/-- Rule 1 reason: pushed exactly when price <= max. -/
def budgetReasons (p : Preferences) (car : Car) : List Reason :=
  if jsLe car.basePrice p.priceRange.max then [Reason.fitsBudget car.basePrice]
  else []

/-- Rule 1 details: the over-budget note, pushed on the 15-point branch. -/
def budgetDetails (p : Preferences) (car : Car) : List Detail :=
  if jsLe car.basePrice p.priceRange.max then []
  else if jsLe car.basePrice (jsMulD p.priceRange.max dbl115) then
    [Detail.slightlyOverBudget car.basePrice]
  else []

/-- Rule 2 (range vs commute): +25 if range >= daily * 2.5, else +15 if
range >= daily * 1.5, else -10; 2.5 and 1.5 are exactly representable
doubles, the products are still rounded as doubles. -/
def rangeDelta (p : Preferences) (car : Car) : ℤ :=
  if jsGe car.rangeMi (jsMulD p.dailyDistance (mkRat 5 2)) then 25
  else if jsGe car.rangeMi (jsMulD p.dailyDistance (mkRat 3 2)) then 15
  else -10

/-- Rule 2 reason: pushed on the 25-point branch. -/
def rangeReasons (p : Preferences) (car : Car) : List Reason :=
  if jsGe car.rangeMi (jsMulD p.dailyDistance (mkRat 5 2)) then
    [Reason.rangeCovers car.rangeMi]
  else []

/-- Rule 3 (priority): Performance looks at 0-60, Efficiency at Wh/mi, any
other priority value (including absent) contributes nothing. -/
def priorityDelta (p : Preferences) (car : Car) : ℤ :=
  if p.priority = some "Performance" then
    if jsLt car.accel (some (mkRat 7 2)) then 20
    else if jsLt car.accel (some (mkRat 9 2)) then 10
    else 0
  else if p.priority = some "Efficiency" then
    if jsLt car.efficiency (some 260) then 20 else 0
  else 0

/-- Rule 3 reasons. -/
def priorityReasons (p : Preferences) (car : Car) : List Reason :=
  if p.priority = some "Performance" then
    if jsLt car.accel (some (mkRat 7 2)) then [Reason.supercarAccel car.accel] else []
  else if p.priority = some "Efficiency" then
    if jsLt car.efficiency (some 260) then [Reason.highEfficiency car.efficiency]
    else []
  else []

/-- Rule 4 (seating): +15 if maxSeats >= passengers, else -50. -/
def seatDelta (p : Preferences) (car : Car) : ℤ :=
  if jsGe (maxSeats car) p.passengers then 15 else -50

/-- Rule 4 reason: only when the car seats more than 5 and more than 5
passengers were requested. -/
def seatReasons (p : Preferences) (car : Car) : List Reason :=
  if jsGe (maxSeats car) p.passengers then
    if jsGt (maxSeats car) (some 5) && jsGt p.passengers (some 5) then
      [Reason.seatsPeople (maxSeats car)]
    else []
  else []

/-- Rule 5 (style): +10 when a concrete style preference matches the body
type.  `preferences.style !== 'Any'` is true for an absent style as well, but
then `car['Body Type'] === undefined` is false. -/
def styleDelta (p : Preferences) (car : Car) : ℤ :=
  if p.style ≠ some "Any" ∧ some car.bodyType = p.style then 10 else 0

/-- Rule 5 reason. -/
def styleReasons (p : Preferences) (car : Car) : List Reason :=
  if p.style ≠ some "Any" ∧ some car.bodyType = p.style then
    [Reason.matchesStyle car.bodyType]
  else []

/-- Rule 6 (towing): +15 when towing is wanted and the cell is not 'NA'. -/
def towDelta (p : Preferences) (car : Car) : ℤ :=
  if p.towing ∧ car.towing ≠ "NA" then 15 else 0

/-- Rule 6 reason. -/
def towReasons (p : Preferences) (car : Car) : List Reason :=
  if p.towing ∧ car.towing ≠ "NA" then [Reason.towingCapacity car.towing] else []

/-- Rule 7 (FSD): +10 when FSD is wanted and the cell is 'Yes'. -/
def fsdDelta (p : Preferences) (car : Car) : ℤ :=
  if p.fsd ∧ car.fsdAvailable = "Yes" then 10 else 0

/-- Rule 7 reason. -/
def fsdReasons (p : Preferences) (car : Car) : List Reason :=
  if p.fsd ∧ car.fsdAvailable = "Yes" then [Reason.fsdReady] else []

/-- The running score total after all seven rules (may be negative). -/
def rawScore (p : Preferences) (car : Car) : ℤ :=
  budgetDelta p car + rangeDelta p car + priorityDelta p car + seatDelta p car
    + styleDelta p car + towDelta p car + fsdDelta p car

/-- All reasons in firing order (the output keeps the first three). -/
def reasonList (p : Preferences) (car : Car) : List Reason :=
  budgetReasons p car ++ rangeReasons p car ++ priorityReasons p car
    ++ seatReasons p car ++ styleReasons p car ++ towReasons p car
    ++ fsdReasons p car

/-- The per-car output record.  The frontend asset id/image and the formatted
display strings (`range`, `acceleration`, `topSpeed`, `specs`) are direct
projections of the same car fields and carry no scoring content, so they are
not repeated here. -/
structure Candidate where
  name : String
  basePrice : JsNum
  rangeMi : JsNum
  accel : JsNum
  score : ℤ
  reasons : List Reason
  details : List Detail
  deriving DecidableEq, Repr

/-- The body of the `TESLA_SPECS.map(car => ...)` callback: run the seven rules
on one car, clamp the score at 0 and keep the first three reasons. -/
def scoreCar (p : Preferences) (car : Car) : Candidate :=
  { name := car.model ++ " " ++ car.variant
    basePrice := car.basePrice
    rangeMi := car.rangeMi
    accel := car.accel
    score := max 0 (rawScore p car)
    reasons := (reasonList p car).take 3
    details := budgetDetails p car }

/-- The comparator order of `scores.sort((a, b) => b.score - a.score)`:
descending by score. -/
def scoreGe (a b : Candidate) : Prop := b.score ≤ a.score

instance : DecidableRel scoreGe :=
  fun a b => inferInstanceAs (Decidable (b.score ≤ a.score))

instance : IsTotal Candidate scoreGe := ⟨fun a b => le_total b.score a.score⟩

instance : IsTrans Candidate scoreGe := ⟨fun _ _ _ hab hbc => le_trans hbc hab⟩

/-- `scores.sort((a, b) => b.score - a.score)`.  `Array.prototype.sort` is
stable (ES2019), which insertion sort with the non-strict descending
comparison reproduces: ties keep their original (catalog) order. -/
def sortedScores (p : Preferences) (catalog : List Car) : List Candidate :=
  List.insertionSort scoreGe (catalog.map (scoreCar p))

/-- `calculateAdvancedRecommendations`, parameterised by the loaded catalog
(the module-global TESLA_SPECS): score every entry, sort descending, keep the
top 3. -/
def calculateAdvancedRecommendations (p : Preferences) (catalog : List Car) :
    List Candidate :=
  (sortedScores p catalog).take 3

/-- The preference payload as it arrives at POST /api/recommend: every field,
including priceRange itself, may be absent. -/
structure RawPreferences where
  priceRange : Option PriceRange
  dailyDistance : JsNum
  passengers : JsNum
  style : Option String
  priority : Option String
  towing : Bool
  fsd : Bool
  cityHighwayRatio : JsNum
  deriving DecidableEq, Repr

/-- Reassemble the scorer's view of the preferences once priceRange is known
to be present. -/
def RawPreferences.toPreferences (rp : RawPreferences) (pr : PriceRange) :
    Preferences :=
  { priceRange := pr
    dailyDistance := rp.dailyDistance
    passengers := rp.passengers
    style := rp.style
    priority := rp.priority
    towing := rp.towing
    fsd := rp.fsd
    cityHighwayRatio := rp.cityHighwayRatio }

/-- The three observable outcomes of the POST /api/recommend handler. -/
inductive RouteResult
  | badRequest
  | serverError
  | ok (recommendations : List Candidate)
  deriving DecidableEq, Repr

/-- Whether the handler answered 200 with a recommendation list. -/
def RouteResult.isOk : RouteResult → Bool
  | .ok _ => true
  | _ => false

/-- POST /api/recommend.  An absent preferences object is answered with 400
('Preferences required').  When preferences is present but priceRange is
absent, the access `preferences.priceRange.max` inside the per-car callback
throws a TypeError which the route's try/catch turns into a 500 — unless the
catalog is empty, in which case the callback never runs and an empty list is
returned.  Otherwise the scorer's result is returned with 200. -/
def recommendRoute (catalog : List Car) (body : Option RawPreferences) :
    RouteResult :=
  match body with
  | none => RouteResult.badRequest
  | some rp =>
    match rp.priceRange with
    | none =>
      if catalog.isEmpty then RouteResult.ok [] else RouteResult.serverError
    | some pr =>
      RouteResult.ok
        (calculateAdvancedRecommendations (rp.toPreferences pr) catalog)

/-! ### Helper lemmas -/

theorem jsLe_none_left (b : JsNum) : jsLe none b = false := by cases b <;> rfl

theorem jsLe_none_right (a : JsNum) : jsLe a none = false := by cases a <;> rfl

/-! ### C1 -/

/-- Concrete preference set for the C1 witness: budget ceiling 20, where the
double product 20 * 1.15 is exactly 23. -/
def prefsW1 : Preferences :=
  { priceRange := { min := some 0, max := some 20 }
    dailyDistance := some 10, passengers := some 2, style := some "Any"
    priority := some "Balanced", towing := false, fsd := false
    cityHighwayRatio := none }

/-- A catalog row priced at the given amount (used at 20, 23 = 1.15 * 20,
24 = 1.15 * 20 + 1 and at the counterexample price 32752). -/
def carPriced (price : ℚ) : Car :=
  { model := "Model 3", variant := "Standard", basePrice := some price
    rangeMi := some 272, accel := some (mkRat 29 5), efficiency := some 250
    seating := some "5", bodyType := "Sedan", towing := "NA"
    fsdAvailable := "No" }

/-- The preference set of the C1 counterexample: budget ceiling 28480. -/
def prefsC1cx : Preferences :=
  { priceRange := { min := some 0, max := some 28480 }
    dailyDistance := some 10, passengers := some 2, style := some "Any"
    priority := some "Balanced", towing := false, fsd := false
    cityHighwayRatio := none }

/-- C1 counterexample: the original claim asserts +15 at a price of exactly
1.15 * max for every max > 0, but at max = 28480 the code computes the double
product 28480 * 1.15 = 32751.999999999996, just below the exact 32752, so a
vehicle priced at exactly 1.15 * max gets -30 there. -/
theorem c1_boundary_counterexample :
    (32752 : ℚ) = 28480 * (23 / 20)
    ∧ prefsC1cx.priceRange.max = some 28480
    ∧ (carPriced 32752).basePrice = some (28480 * (23 / 20))
    ∧ dblMul 28480 dbl115 < 28480 * (23 / 20)
    ∧ budgetDelta prefsC1cx (carPriced 32752) = -30 := by
  refine ⟨by norm_num, rfl, by norm_num [carPriced], ?_, by decide⟩
  have h : dblMul 28480 dbl115 = mkRat 9002801208229887 274877906944 := by decide
  rw [h, mkRat_eq_div]
  norm_num

/-- C1 (amended): for every preference set whose budget ceiling is `max > 0`,
a vehicle priced at exactly `max` still gets a budget contribution of exactly
+30; but the upper boundary sits at the IEEE-double product `max * 1.15` the
code computes, not at the exact `1.15 * max`: a vehicle priced at exactly
`1.15 * max` gets +15 when that double product is at least the price and -30
when rounding pulls the product below it (as at max = 28480); a vehicle
priced at `1.15 * max + 1` gets -30 whenever the double product is below
that price (as at every representable budget). -/
theorem c1_budget_rule_boundary_amended (p : Preferences) (m : ℚ) (hm : 0 < m)
    (hmax : p.priceRange.max = some m) (car : Car) :
    (car.basePrice = some m → budgetDelta p car = 30)
    ∧ (car.basePrice = some (m * (23 / 20)) →
        (m * (23 / 20) ≤ dblMul m dbl115 → budgetDelta p car = 15)
        ∧ (dblMul m dbl115 < m * (23 / 20) → budgetDelta p car = -30))
    ∧ (car.basePrice = some (m * (23 / 20) + 1) →
        dblMul m dbl115 < m * (23 / 20) + 1 → budgetDelta p car = -30) := by
  refine ⟨fun h => ?_, fun h => ⟨fun hcond => ?_, fun hcond => ?_⟩,
    fun h hcond => ?_⟩
  · have h1 : jsLe car.basePrice p.priceRange.max = true := by
      rw [h, hmax]; simp [jsLe]
    have hb : dblMul m dbl08 ≤ m := by
      rw [dblMul_eq_round]
      have hpos : 0 < m * dbl08 := by
        apply mul_pos hm
        rw [dbl08_eq]; norm_num
      have hbnd := dblRound_le (m * dbl08) hpos
      have hc : dbl08 + dbl08 / 2 ^ 52 ≤ 1 := by rw [dbl08_eq]; norm_num
      calc dblRound (m * dbl08) ≤ m * dbl08 + m * dbl08 / 2 ^ 52 := hbnd
        _ = m * (dbl08 + dbl08 / 2 ^ 52) := by ring
        _ ≤ m * 1 := mul_le_mul_of_nonneg_left hc (le_of_lt hm)
        _ = m := mul_one m
    have h2 : jsLt car.basePrice (jsMulD p.priceRange.max dbl08) = false := by
      rw [h, hmax]
      simp only [jsMulD, Option.map, jsLt, decide_eq_false_iff_not, not_lt]
      exact hb
    simp [budgetDelta, h1, h2]
  · have h1 : jsLe car.basePrice p.priceRange.max = false := by
      rw [h, hmax]
      simp only [jsLe, decide_eq_false_iff_not, not_le]
      linarith
    have h2 : jsLe car.basePrice (jsMulD p.priceRange.max dbl115) = true := by
      rw [h, hmax]
      simp only [jsMulD, Option.map, jsLe, decide_eq_true_eq]
      exact hcond
    simp [budgetDelta, h1, h2]
  · have h1 : jsLe car.basePrice p.priceRange.max = false := by
      rw [h, hmax]
      simp only [jsLe, decide_eq_false_iff_not, not_le]
      linarith
    have h2 : jsLe car.basePrice (jsMulD p.priceRange.max dbl115) = false := by
      rw [h, hmax]
      simp only [jsMulD, Option.map, jsLe, decide_eq_false_iff_not, not_le]
      linarith
    simp [budgetDelta, h1, h2]
  · have h1 : jsLe car.basePrice p.priceRange.max = false := by
      rw [h, hmax]
      simp only [jsLe, decide_eq_false_iff_not, not_le]
      linarith
    have h2 : jsLe car.basePrice (jsMulD p.priceRange.max dbl115) = false := by
      rw [h, hmax]
      simp only [jsMulD, Option.map, jsLe, decide_eq_false_iff_not, not_le]
      linarith
    simp [budgetDelta, h1, h2]

/-- C1 witness at max = 20: price 20 gives +30, price 23 gives +15 (the
double product is exactly 23 here), price 24 gives -30. -/
theorem c1_budget_rule_boundary_amended_witness :
    budgetDelta prefsW1 (carPriced 20) = 30
    ∧ budgetDelta prefsW1 (carPriced 23) = 15
    ∧ budgetDelta prefsW1 (carPriced 24) = -30 := by
  have h23 : dblMul 20 dbl115 = 23 := by decide
  refine ⟨(c1_budget_rule_boundary_amended prefsW1 20 (by norm_num) rfl
    (carPriced 20)).1 rfl, ?_, ?_⟩
  · exact ((c1_budget_rule_boundary_amended prefsW1 20 (by norm_num) rfl
      (carPriced 23)).2.1 (by norm_num [carPriced])).1 (by rw [h23]; norm_num)
  · exact (c1_budget_rule_boundary_amended prefsW1 20 (by norm_num) rfl
      (carPriced 24)).2.2 (by norm_num [carPriced]) (by rw [h23]; norm_num)

/-! ### C6 -/

/-- The single catalog entry of the spec's worked example. -/
def modelThreeStandard : Car :=
  { model := "Model 3", variant := "Standard", basePrice := some 38990
    rangeMi := some 272, accel := some (mkRat 29 5), efficiency := some 250
    seating := some "5", bodyType := "Sedan", towing := "NA"
    fsdAvailable := "No" }

/-- The preference set of the spec's worked example. -/
def balancedPrefs : Preferences :=
  { priceRange := { min := some 30000, max := some 40000 }
    dailyDistance := some 30, passengers := some 5, style := some "Any"
    priority := some "Balanced", towing := false, fsd := false
    cityHighwayRatio := none }

/-- C6: on the worked example the scorer returns exactly one candidate with
final score 70 and exactly the budget-fit reason followed by the
range-coverage reason. -/
theorem c6_worked_example :
    (calculateAdvancedRecommendations balancedPrefs [modelThreeStandard]).map
        (fun c => (c.score, c.reasons))
      = [(70, [Reason.fitsBudget (some 38990), Reason.rangeCovers (some 272)])] := by
  decide

/-! ### C7 -/

/-- C7: the output score of every candidate is the running total clamped at 0,
and in particular is never negative. -/
theorem c7_clamping (p : Preferences) (car : Car) :
    (scoreCar p car).score = max 0 (rawScore p car)
    ∧ 0 ≤ (scoreCar p car).score :=
  ⟨rfl, le_max_left 0 _⟩

/-! ### C8 -/

/-- C8: changing only the cityHighwayRatio field of the preferences leaves the
recommendation list unchanged — the field is never consumed by any scoring
rule. -/
theorem c8_cityHighwayRatio_noninterference (catalog : List Car)
    (p : Preferences) (r : JsNum) :
    calculateAdvancedRecommendations { p with cityHighwayRatio := r } catalog
      = calculateAdvancedRecommendations p catalog := rfl

/-! ### C5: the sort is the stable descending sort -/

/-- Descending score with ties broken by the smaller catalog index: the order a
stable descending sort produces on index-tagged candidates. -/
def lexRel (a b : ℕ × Candidate) : Prop :=
  b.2.score < a.2.score ∨ (a.2.score = b.2.score ∧ a.1 ≤ b.1)

instance : DecidableRel lexRel :=
  fun a b => inferInstanceAs (Decidable (_ ∨ _))

theorem le_fst_of_mem_enumFrom {α : Type} :
    ∀ (n : ℕ) (l : List α) (x : ℕ × α), x ∈ l.enumFrom n → n ≤ x.1
  | _, [], x, h => by simp at h
  | n, a :: l, x, h => by
    rw [List.enumFrom_cons] at h
    rcases List.mem_cons.mp h with h | h
    · subst h; exact le_refl n
    · exact (Nat.le_succ n).trans (le_fst_of_mem_enumFrom (n + 1) l x h)

theorem pairwise_fst_lt_enumFrom {α : Type} :
    ∀ (n : ℕ) (l : List α), (l.enumFrom n).Pairwise (fun a b => a.1 < b.1)
  | _, [] => List.Pairwise.nil
  | n, a :: l => by
    rw [List.enumFrom_cons]
    exact List.Pairwise.cons
      (fun y hy => Nat.lt_of_lt_of_le (Nat.lt_succ_self n)
        (le_fst_of_mem_enumFrom (n + 1) l y hy))
      (pairwise_fst_lt_enumFrom (n + 1) l)

/-- Inserting an element whose tag is below every tag in the list: the
index-tiebreaking insertion and the plain score insertion agree. -/
theorem orderedInsert_map_snd (x : ℕ × Candidate) :
    ∀ (s : List (ℕ × Candidate)), (∀ y ∈ s, x.1 < y.1) →
      (List.orderedInsert lexRel x s).map Prod.snd
        = List.orderedInsert scoreGe x.2 (s.map Prod.snd)
  | [], _ => rfl
  | y :: t, h => by
    have hxy : x.1 ≤ y.1 := Nat.le_of_lt (h y (List.mem_cons_self y t))
    by_cases hs : scoreGe x.2 y.2
    · have hl : lexRel x y := by
        rcases lt_or_eq_of_le hs with h1 | h1
        · exact Or.inl h1
        · exact Or.inr ⟨h1.symm, hxy⟩
      simp only [List.orderedInsert, List.map_cons]
      rw [if_pos hl, if_pos hs, List.map_cons, List.map_cons]
    · have hl : ¬lexRel x y := by
        intro hc
        rcases hc with hc | hc
        · exact hs (le_of_lt hc)
        · exact hs (le_of_eq hc.1.symm)
      simp only [List.orderedInsert, List.map_cons]
      rw [if_neg hl, if_neg hs, List.map_cons,
        orderedInsert_map_snd x t (fun z hz => h z (List.mem_cons_of_mem y hz))]

/-- On an index-tagged list with strictly increasing tags, sorting by the
index-tiebreaking order and projecting away the tags is the same as sorting
the projected list by score alone (the stable sort). -/
theorem insertionSort_map_snd :
    ∀ (l : List (ℕ × Candidate)), l.Pairwise (fun a b => a.1 < b.1) →
      (List.insertionSort lexRel l).map Prod.snd
        = List.insertionSort scoreGe (l.map Prod.snd)
  | [], _ => rfl
  | x :: t, h => by
    simp only [List.insertionSort, List.map_cons]
    rw [← insertionSort_map_snd t (List.Pairwise.of_cons h)]
    exact orderedInsert_map_snd x _ (fun y hy =>
      (List.pairwise_cons.mp h).1 y ((List.perm_insertionSort lexRel t).subset hy))

/-- C5: the returned list is sorted descending by score, and it equals the top
3 of the index-tagged stable sort — of two equal-score candidates the one with
the smaller catalog index (earlier in catalog iteration order) comes first. -/
theorem c5_ranking_contract (p : Preferences) (catalog : List Car) :
    List.Sorted scoreGe (sortedScores p catalog)
    ∧ calculateAdvancedRecommendations p catalog
        = ((List.insertionSort lexRel ((catalog.map (scoreCar p)).enum)).map
            Prod.snd).take 3 := by
  constructor
  · exact List.sorted_insertionSort scoreGe _
  · rw [calculateAdvancedRecommendations, sortedScores]
    simp only [List.enum]
    rw [insertionSort_map_snd _ (pairwise_fst_lt_enumFrom 0 _),
      List.enumFrom_map_snd]

/-! ### C9 -/

/-- C9: the result has length min 3 (catalog length); the sorted list is a
permutation of one scored candidate per catalog entry (nothing is filtered
out); an empty catalog gives an empty result. -/
theorem c9_result_length (p : Preferences) (catalog : List Car) :
    (calculateAdvancedRecommendations p catalog).length = min 3 catalog.length
    ∧ List.Perm (sortedScores p catalog) (catalog.map (scoreCar p))
    ∧ (catalog = [] → calculateAdvancedRecommendations p catalog = []) := by
  refine ⟨?_, List.perm_insertionSort scoreGe _, ?_⟩
  · rw [calculateAdvancedRecommendations, sortedScores, List.length_take,
      (List.perm_insertionSort scoreGe _).length_eq, List.length_map]
  · rintro rfl; rfl

/-- Concrete preference set used by the C9 witness. -/
def prefsW9 : Preferences :=
  { priceRange := { min := some 0, max := some 50000 }
    dailyDistance := some 40, passengers := some 4, style := some "SUV"
    priority := some "Efficiency", towing := false, fsd := false
    cityHighwayRatio := some 60 }

/-- C9 witness: on the empty catalog, the implication hypothesis is
discharged and the result is empty. -/
theorem c9_result_length_witness :
    calculateAdvancedRecommendations prefsW9 [] = [] :=
  (c9_result_length prefsW9 []).2.2 rfl

/-! ### C2: malformed records are scored, not skipped -/

/-- A catalog row whose numeric cells all failed to parse (NaN). -/
def carC2bad : Car :=
  { model := "Model X", variant := "Broken", basePrice := none
    rangeMi := none, accel := none, efficiency := none
    seating := some "5", bodyType := "SUV", towing := "NA"
    fsdAvailable := "No" }

/-- Ordinary preferences used with the malformed record. -/
def prefsC2 : Preferences :=
  { priceRange := { min := some 30000, max := some 40000 }
    dailyDistance := some 30, passengers := some 5, style := some "Any"
    priority := some "Balanced", towing := false, fsd := false
    cityHighwayRatio := none }

/-- C2 counterexample: a record with a non-numeric price (and range and
acceleration) is NOT skipped — it still appears, scored, in the returned
list. -/
theorem c2_malformed_scored_counterexample :
    carC2bad.basePrice = none
    ∧ calculateAdvancedRecommendations prefsC2 [carC2bad]
        = [scoreCar prefsC2 carC2bad]
    ∧ (calculateAdvancedRecommendations prefsC2 [carC2bad]).length = 1 :=
  ⟨rfl, rfl, rfl⟩

/-- C2 amended: a malformed record is not skipped; it is scored like any
other record, with every NaN comparison false — the budget rule contributes
-30 on a non-numeric price, the range rule -10 on a non-numeric range — and
its candidate is among the scored candidates. -/
theorem c2_amended_no_skip (p : Preferences) (catalog : List Car) (car : Car)
    (hmem : car ∈ catalog) (hprice : car.basePrice = none)
    (hrange : car.rangeMi = none) :
    budgetDelta p car = -30 ∧ rangeDelta p car = -10
    ∧ scoreCar p car ∈ sortedScores p catalog := by
  refine ⟨?_, ?_, ?_⟩
  · simp [budgetDelta, hprice, jsLe_none_left]
  · simp [rangeDelta, jsGe, hrange, jsLe_none_right]
  · exact (List.perm_insertionSort scoreGe _).mem_iff.mpr
      (List.mem_map_of_mem _ hmem)

/-- C2 witness: the concrete malformed record gets -30 and -10 from the
budget and range rules and is present in the sorted scored list. -/
theorem c2_amended_no_skip_witness :
    budgetDelta prefsC2 carC2bad = -30 ∧ rangeDelta prefsC2 carC2bad = -10
    ∧ scoreCar prefsC2 carC2bad ∈ sortedScores prefsC2 [carC2bad] :=
  c2_amended_no_skip prefsC2 [carC2bad] carC2bad
    (List.mem_singleton_self carC2bad) rfl rfl

/-! ### C3: the route performs no per-field validation -/

/-- An ordinary well-formed catalog row for the route-level claims. -/
def carC3 : Car :=
  { model := "Model Y", variant := "Long Range", basePrice := some 48990
    rangeMi := some 320, accel := some (mkRat 48 10), efficiency := some 270
    seating := some "5/7", bodyType := "SUV", towing := "3500"
    fsdAvailable := "Yes" }

/-- A payload whose required field priceRange.max is absent. -/
def rawPrefsC3 : RawPreferences :=
  { priceRange := some { min := some 30000, max := none }
    dailyDistance := some 30, passengers := some 5, style := some "Any"
    priority := some "Balanced", towing := false, fsd := false
    cityHighwayRatio := none }

/-- C3 counterexample: with priceRange.max absent the route does NOT reject
the request — it answers 200 with a scored result (the absent ceiling just
makes both budget comparisons false). -/
theorem c3_no_validation_counterexample :
    rawPrefsC3.priceRange = some { min := some 30000, max := none }
    ∧ ({ min := some 30000, max := none } : PriceRange).max = none
    ∧ recommendRoute [carC3] (some rawPrefsC3)
        = RouteResult.ok
            [scoreCar (rawPrefsC3.toPreferences { min := some 30000, max := none })
              carC3] :=
  ⟨rfl, rfl, rfl⟩

/-- C3 amended: the route rejects (400) only when the preferences object
itself is absent; whenever preferences is present with a priceRange object,
the scorer runs and its result is returned with 200, regardless of which
individual fields (max, dailyDistance, passengers, style) are absent. -/
theorem c3_amended_validation (catalog : List Car) (rp : RawPreferences)
    (pr : PriceRange) (h : rp.priceRange = some pr) :
    recommendRoute catalog none = RouteResult.badRequest
    ∧ recommendRoute catalog (some rp)
        = RouteResult.ok
            (calculateAdvancedRecommendations (rp.toPreferences pr) catalog) := by
  refine ⟨rfl, ?_⟩
  simp [recommendRoute, h]

/-- The priceRange object of the C3-witness payload. -/
def prW3 : PriceRange := { min := some 30000, max := none }

/-- A payload with priceRange present but max, dailyDistance, passengers and
style all absent. -/
def rawPrefsW3 : RawPreferences :=
  { priceRange := some prW3
    dailyDistance := none, passengers := none, style := none
    priority := none, towing := false, fsd := false
    cityHighwayRatio := none }

/-- C3 witness: the amended behaviour at concrete inputs. -/
theorem c3_amended_validation_witness :
    recommendRoute [carC3] none = RouteResult.badRequest
    ∧ recommendRoute [carC3] (some rawPrefsW3)
        = RouteResult.ok
            (calculateAdvancedRecommendations (rawPrefsW3.toPreferences prW3)
              [carC3]) :=
  c3_amended_validation [carC3] rawPrefsW3 prW3 rfl

/-! ### C4: seating dominance, weakened by output clamping -/

/-- Preferences under which even a seat-compliant vehicle ends at raw score
-25: budget ceiling far below the price, commute far beyond the range. -/
def prefsC4 : Preferences :=
  { priceRange := { min := some 0, max := some 10000 }
    dailyDistance := some 1000, passengers := some 5, style := some "Any"
    priority := some "Balanced", towing := false, fsd := false
    cityHighwayRatio := none }

/-- A vehicle meeting the seat requirement (5 seats for 5 passengers). -/
def carC4meet : Car :=
  { model := "Model S", variant := "Plaid", basePrice := some 100000
    rangeMi := some 10, accel := some 2, efficiency := some 300
    seating := some "5", bodyType := "Sedan", towing := "NA"
    fsdAvailable := "No" }

/-- The identical vehicle except for a 4-seat cabin, failing the requirement. -/
def carC4fail : Car := { carC4meet with seating := some "4" }

/-- C4 counterexample: both vehicles clamp to an output score of 0, so the
seat-failing vehicle does NOT have a strictly lower final output score than
the otherwise-identical compliant one. -/
theorem c4_strict_dominance_counterexample :
    jsGe (maxSeats carC4meet) prefsC4.passengers = true
    ∧ jsGe (maxSeats carC4fail) prefsC4.passengers = false
    ∧ carC4fail = { carC4meet with seating := some "4" }
    ∧ (scoreCar prefsC4 carC4meet).score = 0
    ∧ (scoreCar prefsC4 carC4fail).score = 0
    ∧ ¬((scoreCar prefsC4 carC4fail).score
          < (scoreCar prefsC4 carC4meet).score) := by
  decide

/-- C4 amended: between two vehicles identical except for the seating cell,
the one failing the seat requirement never scores above the one meeting it,
and scores strictly below it whenever the compliant vehicle's final output
score is positive (the raw totals differ by exactly 65, but both can clamp
to 0). -/
theorem c4_amended_seating_dominance (p : Preferences) (car : Car)
    (s1 s2 : Option String)
    (hmeet : jsGe (maxSeats { car with seating := s1 }) p.passengers = true)
    (hfail : jsGe (maxSeats { car with seating := s2 }) p.passengers = false) :
    (scoreCar p { car with seating := s2 }).score
      ≤ (scoreCar p { car with seating := s1 }).score
    ∧ (0 < (scoreCar p { car with seating := s1 }).score →
        (scoreCar p { car with seating := s2 }).score
          < (scoreCar p { car with seating := s1 }).score) := by
  have hb : budgetDelta p { car with seating := s2 }
      = budgetDelta p { car with seating := s1 } := rfl
  have hr : rangeDelta p { car with seating := s2 }
      = rangeDelta p { car with seating := s1 } := rfl
  have hpr : priorityDelta p { car with seating := s2 }
      = priorityDelta p { car with seating := s1 } := rfl
  have hst : styleDelta p { car with seating := s2 }
      = styleDelta p { car with seating := s1 } := rfl
  have htw : towDelta p { car with seating := s2 }
      = towDelta p { car with seating := s1 } := rfl
  have hf : fsdDelta p { car with seating := s2 }
      = fsdDelta p { car with seating := s1 } := rfl
  have hs1 : seatDelta p { car with seating := s1 } = 15 := by
    simp [seatDelta, hmeet]
  have hs2 : seatDelta p { car with seating := s2 } = -50 := by
    simp [seatDelta, hfail]
  have hraw : rawScore p { car with seating := s2 }
      = rawScore p { car with seating := s1 } - 65 := by
    simp only [rawScore, hb, hr, hpr, hst, htw, hf, hs1, hs2]
    ring
  have e1 : (scoreCar p { car with seating := s1 }).score
      = max 0 (rawScore p { car with seating := s1 }) := rfl
  have e2 : (scoreCar p { car with seating := s2 }).score
      = max 0 (rawScore p { car with seating := s2 }) := rfl
  constructor
  · rw [e1, e2, hraw]; omega
  · intro hpos
    rw [e1] at hpos
    rw [e1, e2, hraw]
    omega

/-- Preferences for the C4 witness: everything favourable, 5 passengers. -/
def prefsW4 : Preferences :=
  { priceRange := { min := some 0, max := some 40000 }
    dailyDistance := some 30, passengers := some 5, style := some "Any"
    priority := some "Balanced", towing := false, fsd := false
    cityHighwayRatio := none }

/-- Base vehicle for the C4 witness. -/
def carW4 : Car :=
  { model := "Model 3", variant := "RWD", basePrice := some 30000
    rangeMi := some 272, accel := some (mkRat 58 10), efficiency := some 250
    seating := some "5", bodyType := "Sedan", towing := "NA"
    fsdAvailable := "No" }

/-- C4 witness: with a positive compliant score (75 vs 10) the inequalities
are strict. -/
theorem c4_amended_seating_dominance_witness :
    (scoreCar prefsW4 { carW4 with seating := some "4" }).score
      ≤ (scoreCar prefsW4 { carW4 with seating := some "5" }).score
    ∧ (scoreCar prefsW4 { carW4 with seating := some "4" }).score
        < (scoreCar prefsW4 { carW4 with seating := some "5" }).score :=
  ⟨(c4_amended_seating_dominance prefsW4 carW4 (some "5") (some "4")
      (by decide) (by decide)).1,
   (c4_amended_seating_dominance prefsW4 carW4 (some "5") (some "4")
      (by decide) (by decide)).2 (by decide)⟩

/-! ### C10: the seating default -/

/-- C10: when the 'Seating Capacity' cell is absent or empty, the effective
seat count is 5, so the seating rule gives +15 exactly when at most 5
passengers are requested and -50 when more than 5 are requested. -/
theorem c10_seating_default (p : Preferences) (car : Car)
    (hseat : car.seating = none ∨ car.seating = some "") (n : ℚ)
    (hn : p.passengers = some n) :
    maxSeats car = some 5
    ∧ (n ≤ 5 → seatDelta p car = 15)
    ∧ (5 < n → seatDelta p car = -50) := by
  have hstr : seatsStr car = "5" := by
    rcases hseat with h | h <;> simp [seatsStr, h]
  have hms : maxSeats car = some 5 := by
    simp only [maxSeats, hstr]
    decide
  refine ⟨hms, fun hle => ?_, fun hlt => ?_⟩
  · simp [seatDelta, jsGe, jsLe, hms, hn, hle]
  · simp [seatDelta, jsGe, jsLe, hms, hn]
    exact hlt

/-- Preferences with 4 requested passengers for the C10 witness. -/
def prefsW10 : Preferences :=
  { priceRange := { min := some 0, max := some 40000 }
    dailyDistance := some 30, passengers := some 4, style := some "Any"
    priority := some "Balanced", towing := false, fsd := false
    cityHighwayRatio := none }

/-- A catalog row whose 'Seating Capacity' cell is absent. -/
def carW10 : Car :=
  { model := "Cybertruck", variant := "AWD", basePrice := some 79990
    rangeMi := some 340, accel := some (mkRat 41 10), efficiency := some 450
    seating := none, bodyType := "Pickup", towing := "11000"
    fsdAvailable := "Yes" }

/-- C10 witness: with the seating cell absent and 4 passengers requested the
rule pays +15; with 6 requested (prefsC10six) it pays -50. -/
def prefsC10six : Preferences := { prefsW10 with passengers := some 6 }

theorem c10_seating_default_witness :
    maxSeats carW10 = some 5
    ∧ seatDelta prefsW10 carW10 = 15
    ∧ seatDelta prefsC10six carW10 = -50 :=
  ⟨(c10_seating_default prefsW10 carW10 (Or.inl rfl) 4 rfl).1,
   (c10_seating_default prefsW10 carW10 (Or.inl rfl) 4 rfl).2.1 (by norm_num),
   (c10_seating_default prefsC10six carW10 (Or.inl rfl) 6 rfl).2.2 (by norm_num)⟩

end TeslaRec
